import Mathlib

/-!
Verification of the `ana-online-judge` worker core against its
natural-language specification.  The Rust sources under `src/judge/src/`
are shallowly embedded below: pure Rust functions become Lean functions,
the effectful pipeline steps (storage downloads, sandbox executions,
checker invocations) are passed in as explicit environment values, and
`u32` arithmetic is modelled on `Nat` with an explicit `% 2^32` where the
source performs machine arithmetic.
-/

namespace AnaJudge

/-- `u32` modulus. -/
def u32Mod : Nat := 2 ^ 32

/-- Verdict enumeration, from `checker.rs` (`enum Verdict`). -/
inductive Verdict where
  | accepted
  | wrongAnswer
  | timeLimitExceeded
  | memoryLimitExceeded
  | runtimeError
  | systemError
  | compileError
  | skipped
  | presentationError
  | fail
  deriving DecidableEq, Repr

/-- `Display for Verdict` from `checker.rs`: the wire string of a verdict. -/
def Verdict.str : Verdict → String
  | .accepted => "accepted"
  | .wrongAnswer => "wrong_answer"
  | .timeLimitExceeded => "time_limit_exceeded"
  | .memoryLimitExceeded => "memory_limit_exceeded"
  | .runtimeError => "runtime_error"
  | .systemError => "system_error"
  | .compileError => "compile_error"
  | .skipped => "skipped"
  | .presentationError => "presentation_error"
  | .fail => "fail"

/-- `exit_code_to_verdict` from `checker.rs`: map a testlib checker exit
code to a verdict.  The named testlib codes are 0 (_ok), 1 (_wa),
2 (_pe), 3 (_fail), 4 (_dirt), 8 (_unexpected_eof). -/
def exit_code_to_verdict (exit_code : Int) : Verdict :=
  if exit_code = 0 then .accepted
  else if exit_code = 1 then .wrongAnswer
  else if exit_code = 2 then .presentationError
  else if exit_code = 3 then .fail
  else if exit_code = 4 then .wrongAnswer
  else if exit_code = 8 then .wrongAnswer
  else if exit_code < 0 ∨ exit_code > 127 then .systemError
  else .wrongAnswer

/-- `ExecutionStatus` from `engine/executer.rs`. -/
inductive ExecutionStatus where
  | exited (code : Int)
  | timeLimitExceeded
  | memoryLimitExceeded
  | signaled (sig : Int)
  | runtimeError
  | systemError
  deriving DecidableEq, Repr

/-- `ExecutionOutcome` from `engine/executer.rs`: result of one sandboxed
execution.  Rust `String`s are Lean `String`s, the raw byte buffer is a
list of byte values. -/
structure ExecutionOutcome where
  status : ExecutionStatus
  time_ms : Nat
  memory_kb : Nat
  stdout : String
  stdout_bytes : List Nat
  stderr : String
  deriving DecidableEq, Repr

/-- `ExecutionOutcome::is_success`. -/
def ExecutionOutcome.is_success (o : ExecutionOutcome) : Bool :=
  o.status = ExecutionStatus.exited 0

/-- `ExecutionOutcome::exit_code` (−1 when the status is not `Exited`). -/
def ExecutionOutcome.exit_code (o : ExecutionOutcome) : Int :=
  match o.status with
  | .exited code => code
  | _ => -1

/-! ## Language registry (`languages.rs`) -/

/-- `LanguageConfig` from `languages.rs` (only the fields the limit
computations read; command templates are lists of argv words). -/
structure LanguageConfig where
  source_file : String
  compile_command : Option (List String)
  run_command : List String
  time_limit : Option (Nat × Nat)
  memory_limit : Option (Nat × Nat)

/-- `LanguageConfig::calculate_time_limit`: `base * multiplier +
bonus_seconds * 1000` in `u32` arithmetic, or the base unchanged when no
pair is configured. -/
def LanguageConfig.calculate_time_limit (c : LanguageConfig) (base_time_ms : Nat) : Nat :=
  match c.time_limit with
  | some (multiplier, bonus_seconds) =>
      (base_time_ms * multiplier + bonus_seconds * 1000) % u32Mod
  | none => base_time_ms

/-- `LanguageConfig::calculate_memory_limit`: `base * multiplier +
bonus_mb` in `u32` arithmetic, or the base unchanged. -/
def LanguageConfig.calculate_memory_limit (c : LanguageConfig) (base_memory_mb : Nat) : Nat :=
  match c.memory_limit with
  | some (multiplier, bonus_mb) =>
      (base_memory_mb * multiplier + bonus_mb) % u32Mod
  | none => base_memory_mb

/-! ## Isolate meta parsing (`engine/sandbox/meta.rs`) and status
normalisation (`engine/executer.rs`) -/

/-- `IsolateStatus` from `engine/sandbox/meta.rs`. -/
inductive IsolateStatus where
  | ok
  | timeOut
  | signal (sig : Int)
  | runtimeError
  | internalError
  deriving DecidableEq, Repr

/-- `IsolateMeta` from `engine/sandbox/meta.rs`. -/
structure IsolateMeta where
  time_ms : Nat
  memory_kb : Nat
  exit_code : Int
  status : IsolateStatus
  wall_time_ms : Nat
  deriving DecidableEq, Repr

/-- Split a character list at every occurrence of `sep` (the separators
are consumed); the result is never empty.  Models Rust `str::split`.
(Core `String.splitOn` is avoided because its well-founded recursion
does not reduce in the kernel.) -/
def split_on_char (sep : Char) : List Char → List (List Char)
  | [] => [[]]
  | c :: cs =>
    if c = sep then [] :: split_on_char sep cs
    else
      match split_on_char sep cs with
      | [] => [[c]]
      | l :: ls => (c :: l) :: ls

/-- Rust `str::trim` restricted to the ASCII whitespace appearing in
meta files (Rust trims full Unicode whitespace). -/
def trim_chars (l : List Char) : List Char :=
  ((l.dropWhile Char.isWhitespace).reverse.dropWhile Char.isWhitespace).reverse

/-- Digit-string accumulator for the integer parsers. -/
def digits_to_nat_aux : List Char → Nat → Option Nat
  | [], acc => some acc
  | c :: cs, acc =>
    if c.isDigit then digits_to_nat_aux cs (acc * 10 + (c.toNat - '0'.toNat))
    else none

/-- Parse a non-empty all-digit character list as a natural number. -/
def chars_to_nat? : List Char → Option Nat
  | [] => none
  | l => digits_to_nat_aux l 0

/-- Parse an optionally `-`-signed digit list as an integer. -/
def chars_to_int? : List Char → Option Int
  | '-' :: rest => (chars_to_nat? rest).map (fun n => -(n : Int))
  | l => (chars_to_nat? l).map (fun n => (n : Int))

/-- Rust `value.parse::<u32>()` for the plain digit strings found in
isolate meta files (the optional `+` sign Rust also accepts is not
modelled). -/
def parse_u32 (s : String) : Option Nat :=
  match chars_to_nat? s.data with
  | some n => if n < u32Mod then some n else none
  | none => none

/-- Rust `value.parse::<i32>()` for plain optionally-negated digit
strings. -/
def parse_i32 (s : String) : Option Int :=
  match chars_to_int? s.data with
  | some v => if -(2 ^ 31) ≤ v ∧ v < 2 ^ 31 then some v else none
  | none => none

/-- Models Rust `value.parse::<f64>()` followed by `(t * 1000.0) as u32`
for the plain decimal literals isolate writes (`"0.015"`): integer part
times 1000 plus the first three fraction digits, truncating further
digits and saturating at `u32::MAX` as the float-to-int cast does.  The
binary-float rounding of the exact product is not modelled; no theorem
below depends on a parsed time value. -/
def parse_time_ms (s : String) : Option Nat :=
  match split_on_char '.' s.data with
  | [ip] => (chars_to_nat? ip).map (fun n => min (n * 1000) (u32Mod - 1))
  | [ip, fp] =>
      match chars_to_nat? ip, chars_to_nat? ((fp ++ ['0', '0', '0']).take 3) with
      | some n, some f => some (min (n * 1000 + f) (u32Mod - 1))
      | _, _ => none
  | _ => none

/-- Split a line at its first colon, as Rust `line.splitn(2, ':')`
does. -/
def split_first_colon : List Char → Option (List Char × List Char)
  | [] => none
  | c :: cs =>
    if c = ':' then some ([], cs)
    else
      match split_first_colon cs with
      | some (k, v) => some (c :: k, v)
      | none => none

/-- Rust `line.splitn(2, ':')` plus the two `trim` calls: `none` when the
line has no colon (the parser skips it), else the trimmed key and the
trimmed remainder after the first colon. -/
def split_kv (line : String) : Option (String × String) :=
  match split_first_colon line.data with
  | some (k, v) => some (⟨trim_chars k⟩, ⟨trim_chars v⟩)
  | none => none

/-- The local state of the parsing loop in `parse_meta`
(`engine/sandbox/meta.rs`): the partially built meta record plus the
`status_str` local variable. -/
structure MetaParseState where
  time_ms : Nat
  wall_time_ms : Nat
  memory_kb : Nat
  exit_code : Int
  status : IsolateStatus
  status_str : String
  deriving DecidableEq, Repr

/-- Initial loop state: `IsolateMeta::default()` plus an empty
`status_str`. -/
def meta_init : MetaParseState :=
  { time_ms := 0, wall_time_ms := 0, memory_kb := 0, exit_code := 0,
    status := .ok, status_str := "" }

/-- One iteration of the `for line in content.lines()` loop of
`parse_meta`. -/
def parse_meta_line (st : MetaParseState) (line : String) : MetaParseState :=
  match split_kv line with
  | none => st
  | some (key, value) =>
    if key = "time" then
      match parse_time_ms value with
      | some t => { st with time_ms := t }
      | none => st
    else if key = "time-wall" then
      match parse_time_ms value with
      | some t => { st with wall_time_ms := t }
      | none => st
    else if key = "cg-mem" ∨ key = "max-rss" then
      match parse_u32 value with
      | some m =>
          if st.memory_kb = 0 ∨ m > st.memory_kb then { st with memory_kb := m } else st
      | none => st
    else if key = "status" then
      { st with status_str := value }
    else if key = "exitcode" then
      { st with exit_code := (parse_i32 value).getD 0 }
    else if key = "exitsig" then
      match parse_i32 value with
      | some sig => { st with status := .signal sig }
      | none => st
    else st

/-- The parsing loop of `parse_meta` over the meta file's lines
(`content.lines()` is modelled as the list of lines). -/
def parse_meta_state (lines : List String) : MetaParseState :=
  lines.foldl parse_meta_line meta_init

/-- `parse_meta` from `engine/sandbox/meta.rs`: run the loop, then if no
`exitsig` line set a signal status, derive the status from the status
string. -/
def parse_meta (lines : List String) : IsolateMeta :=
  let st := parse_meta_state lines
  let status :=
    if st.status = .ok then
      if st.status_str = "TO" then IsolateStatus.timeOut
      else if st.status_str = "SG" then IsolateStatus.signal 0
      else if st.status_str = "RE" then IsolateStatus.runtimeError
      else if st.status_str = "XX" then IsolateStatus.internalError
      else if st.status_str = "" then
        (if st.exit_code = 0 then IsolateStatus.ok else IsolateStatus.runtimeError)
      else IsolateStatus.runtimeError
    else st.status
  { time_ms := st.time_ms, memory_kb := st.memory_kb, exit_code := st.exit_code,
    status := status, wall_time_ms := st.wall_time_ms }

/-- The status normalisation of `execute_sandboxed`
(`engine/executer.rs` lines 186–210): map the isolate status to an
`ExecutionStatus`, then upgrade to `MemoryLimitExceeded` whenever the
reported memory exceeds the limit and the status is not already MLE. -/
def meta_to_execution_status (meta : IsolateMeta) (memory_limit_kb : Nat) : ExecutionStatus :=
  let status : ExecutionStatus :=
    match meta.status with
    | .ok =>
        if meta.exit_code = 0 then
          if meta.memory_kb > memory_limit_kb then .memoryLimitExceeded
          else .exited 0
        else .exited meta.exit_code
    | .timeOut => .timeLimitExceeded
    | .signal sig => .signaled sig
    | .runtimeError => .runtimeError
    | .internalError => .systemError
  if meta.memory_kb > memory_limit_kb ∧ status ≠ .memoryLimitExceeded then
    .memoryLimitExceeded
  else status

/-- The meta-to-status pipeline of `execute_sandboxed` for a memory
limit given in MiB (`spec.limits.memory_mb * 1024` in `u32`
arithmetic). -/
def execution_status_of (lines : List String) (memory_mb : Nat) : ExecutionStatus :=
  meta_to_execution_status (parse_meta lines) (memory_mb * 1024 % u32Mod)

/-! ## Output comparison (`judger.rs::compare_output`)

Rust `str::lines()` is modelled on character lists: the text is split at
every `'\n'`; every chunk that was terminated by a `'\n'` has a single
trailing `'\r'` stripped (Rust treats `"\r\n"` as a line ending); a
final empty chunk (from a trailing newline) yields no line. -/

/-- Strip one trailing `'\r'`, as Rust `lines()` does on
newline-terminated chunks. -/
def strip_cr (l : List Char) : List Char :=
  if l.getLast? = some '\r' then l.dropLast else l

/-- Rust `s.lines()` as a list of character lists. -/
def rust_lines (s : List Char) : List (List Char) :=
  let parts := split_on_char '\n' s
  parts.dropLast.map strip_cr ++
    match parts.getLast? with
    | some l => if l = [] then [] else [l]
    | none => []

/-- Rust `str::trim_end` (restricted to ASCII whitespace; Rust trims
full Unicode whitespace, which agrees on the characters these claims
exercise). -/
def trim_end_chars (l : List Char) : List Char :=
  (l.reverse.dropWhile Char.isWhitespace).reverse

/-- The `normalize` closure of `compare_output`: split into lines and
right-trim each line. -/
def normalize_output (s : List Char) : List (List Char) :=
  (rust_lines s).map trim_end_chars

/-- The `trim_trailing` closure of `compare_output`: pop trailing empty
lines. -/
def trim_trailing_empty (lines : List (List Char)) : List (List Char) :=
  (lines.reverse.dropWhile (fun l => l.isEmpty)).reverse

/-- `compare_output` from `judger.rs`: normalise both outputs (line-wise
right-trim, drop trailing empty lines) and compare. -/
def compare_output (actual expected : String) : Bool :=
  trim_trailing_empty (normalize_output actual.data) ==
    trim_trailing_empty (normalize_output expected.data)

/-! ## Box-id allocation -/

/-- `next_box_id` from `engine/executer.rs`: `config.worker_id * 1000 +
(counter % 1000)` in `u32` arithmetic, where `counter` is the value read
from the atomic allocation counter. -/
def next_box_id (worker_id counter : Nat) : Nat :=
  (worker_id * 1000 + counter % 1000) % u32Mod

/-- `calculate_box_id` from `sandbox.rs`: the worker id is first reduced
`% 10`, and the per-call value `base_counter * 10 + testcase_idx` cycles
`% 1000` inside the worker's range (`u32` arithmetic throughout). -/
def calculate_box_id (worker_id base_counter testcase_idx : Nat) : Nat :=
  let effective_worker_id := worker_id % 10
  let worker_offset := effective_worker_id * 1000
  (worker_offset + ((base_counter * 10 + testcase_idx) % u32Mod % 1000)) % u32Mod

/-! ## Standard judger pipeline (`judger.rs`) -/

/-- `ProblemType` from `judger.rs`. -/
inductive ProblemType where
  | icpc
  | specialJudge
  deriving DecidableEq, Repr

/-- `TestcaseInfo` from `judger.rs`. -/
structure TestcaseInfo where
  id : Int
  input_path : String
  output_path : String
  deriving DecidableEq, Repr

/-- `JudgeJob` from `judger.rs`. -/
structure JudgeJob where
  submission_id : Int
  problem_id : Int
  code : String
  language : String
  time_limit : Nat
  ignore_time_limit_bonus : Bool
  memory_limit : Nat
  ignore_memory_limit_bonus : Bool
  testcases : List TestcaseInfo
  problem_type : ProblemType
  checker_path : Option String
  deriving DecidableEq, Repr

/-- `TestcaseResult` from `judger.rs`. -/
structure TestcaseResult where
  testcase_id : Int
  verdict : String
  execution_time : Option Nat
  memory_used : Option Nat
  output : Option String
  deriving DecidableEq, Repr

/-- `JudgeResult` from `judger.rs` (this snapshot has no `score`
field). -/
structure JudgeResult where
  submission_id : Int
  verdict : String
  execution_time : Option Nat
  memory_used : Option Nat
  testcase_results : List TestcaseResult
  error_message : Option String
  deriving DecidableEq, Repr

/-- `CompileResult` from the compiler module. -/
structure CompileResult where
  success : Bool
  message : Option String
  deriving DecidableEq, Repr

/-- Environment of one testcase iteration of `process_judge_job`: the
downloaded input and expected output, the sandboxed run's outcome, and —
for special-judge problems — the checker invocation's result.
`checker_exit_code = some c` models `run_checker` returning `Ok` whose
inner execution reported `exit_code() = c` (`run_checker` maps it with
`exit_code_to_verdict`); `none` models `run_checker` returning `Err`. -/
structure TcEnv where
  input_content : String
  expected_output : String
  run : ExecutionOutcome
  checker_exit_code : Option Int
  deriving DecidableEq, Repr

/-- The `output_preview` computation of `process_judge_job`: `none` for
empty stdout, else the first 4096 characters. -/
def output_preview (stdout : String) : Option String :=
  if stdout.data = [] then none else some ⟨stdout.data.take 4096⟩

/-- The verdict match of `process_judge_job` for one executed testcase
(`judger.rs` lines 200–244). -/
def testcase_verdict (special_judge : Bool) (e : TcEnv) : Verdict :=
  match e.run.status with
  | .exited code =>
      if code = 0 then
        if special_judge then
          match e.checker_exit_code with
          | some c => exit_code_to_verdict c
          | none => .systemError
        else
          if compare_output e.run.stdout e.expected_output then .accepted
          else .wrongAnswer
      else .runtimeError
  | .timeLimitExceeded => .timeLimitExceeded
  | .memoryLimitExceeded => .memoryLimitExceeded
  | .signaled _ => .runtimeError
  | .runtimeError => .runtimeError
  | .systemError => .systemError

/-- The per-testcase loop of `process_judge_job`: runs testcases in
order, records an entry per executed testcase (always with its measured
time and memory), and stops at the first non-accepted verdict, which
becomes the overall verdict.  Returns (entries, overall verdict,
max time, max memory). -/
def run_testcases (special_judge : Bool) :
    List (TestcaseInfo × TcEnv) → List TestcaseResult × Verdict × Nat × Nat
  | [] => ([], .accepted, 0, 0)
  | (tc, e) :: rest =>
    let verdict := testcase_verdict special_judge e
    let entry : TestcaseResult :=
      { testcase_id := tc.id, verdict := verdict.str,
        execution_time := some e.run.time_ms, memory_used := some e.run.memory_kb,
        output := output_preview e.run.stdout }
    if verdict = .accepted then
      let r := run_testcases special_judge rest
      (entry :: r.1, r.2.1, max e.run.time_ms r.2.2.1, max e.run.memory_kb r.2.2.2)
    else
      ([entry], verdict, e.run.time_ms, e.run.memory_kb)

/-- The skipped entry of the skip-fill loop of `process_judge_job`. -/
def skipped_result (tc : TestcaseInfo) : TestcaseResult :=
  { testcase_id := tc.id, verdict := Verdict.skipped.str,
    execution_time := none, memory_used := none, output := none }

/-- The tail of `process_judge_job` once the compile step and checker
resolution have succeeded: run the loop, fill the remaining testcases
with skipped entries, and set the overall time/memory iff accepted
(`judger.rs` lines 151–301). -/
def judge_after_checker (job : JudgeJob) (special_judge : Bool) (env : Nat → TcEnv) :
    JudgeResult :=
  let pairs := job.testcases.enum.map (fun p => (p.2, env p.1))
  let r := run_testcases special_judge pairs
  let testcase_results := r.1 ++ (job.testcases.drop r.1.length).map skipped_result
  { submission_id := job.submission_id,
    verdict := r.2.1.str,
    execution_time := if r.2.1 = .accepted then some r.2.2.1 else none,
    memory_used := if r.2.1 = .accepted then some r.2.2.2 else none,
    testcase_results := testcase_results,
    error_message := none }

/-- `process_judge_job` from `judger.rs`.  The effectful steps are
environment parameters: `compile_needed` is whether the language has a
compile command, `compile_result` that command's result,
`checker_resolution` the result of `get_checker` for special-judge
problems, and `env i` the environment of testcase `i`.  Storage
downloads are assumed to succeed (a failed download makes the Rust
function return `Err` instead of a result). -/
def process_judge_job (job : JudgeJob) (compile_needed : Bool)
    (compile_result : CompileResult) (checker_resolution : Except String Unit)
    (env : Nat → TcEnv) : JudgeResult :=
  if compile_needed ∧ compile_result.success = false then
    { submission_id := job.submission_id, verdict := Verdict.compileError.str,
      execution_time := none, memory_used := none, testcase_results := [],
      error_message := compile_result.message }
  else
    match job.problem_type with
    | .specialJudge =>
      match job.checker_path with
      | some _ =>
        match checker_resolution with
        | .ok _ => judge_after_checker job true env
        | .error e =>
          { submission_id := job.submission_id, verdict := Verdict.systemError.str,
            execution_time := none, memory_used := none, testcase_results := [],
            error_message := some ("Failed to compile checker: " ++ e) }
      | none =>
        { submission_id := job.submission_id, verdict := Verdict.systemError.str,
          execution_time := none, memory_used := none, testcase_results := [],
          error_message := some "Special judge problem requires a checker" }
    | .icpc => judge_after_checker job false env

/-! ## Anigma Task-2 pipeline (`anigma.rs`) -/

/-- `AnigmaTestcase` from `anigma.rs`. -/
structure AnigmaTestcase where
  id : Int
  input_path : String
  expected_output_path : String
  deriving DecidableEq, Repr

/-- `AnigmaJudgeJob` from `anigma.rs`. -/
structure AnigmaJudgeJob where
  submission_id : Int
  problem_id : Int
  zip_path : String
  reference_code_path : String
  time_limit : Nat
  memory_limit : Nat
  max_score : Int
  testcases : List AnigmaTestcase
  checker_path : Option String
  deriving DecidableEq, Repr

/-- The `JudgeResult` struct as `anigma.rs` uses it — unlike the
`judger.rs` snapshot above it carries a `score` field (the two files
reflect different snapshots of the same struct). -/
structure AnigmaBaseResult where
  submission_id : Int
  verdict : String
  score : Int
  execution_time : Option Nat
  memory_used : Option Nat
  testcase_results : List TestcaseResult
  error_message : Option String
  deriving DecidableEq, Repr

/-- `AnigmaJudgeResult` from `anigma.rs`. -/
structure AnigmaJudgeResult where
  base : AnigmaBaseResult
  edit_distance : Option Nat
  deriving DecidableEq, Repr

/-- Environment of one testcase iteration of `process_anigma_job`: the
downloaded input bytes, the `make run` outcome, and the expected
output.  `expected` models `String::from_utf8(expected_bytes)`:
`Except.ok text` when the downloaded bytes are valid UTF-8 and decode to
`text`, `Except.error bytes` otherwise. -/
structure AnigmaTcEnv where
  input_data : List Nat
  run : ExecutionOutcome
  expected : Except (List Nat) String
  deriving Repr

/-- The verdict match of `process_anigma_job` for one executed testcase
(`anigma.rs` lines 165–194). -/
def anigma_testcase_verdict (e : AnigmaTcEnv) : Verdict :=
  match e.run.status with
  | .exited code =>
    if code = 0 then
      match e.expected with
      | .ok expected_str =>
          if compare_output e.run.stdout expected_str then .accepted else .wrongAnswer
      | .error expected_bytes =>
          if e.run.stdout_bytes = expected_bytes then .accepted else .wrongAnswer
    else .wrongAnswer
  | .timeLimitExceeded => .timeLimitExceeded
  | .memoryLimitExceeded => .memoryLimitExceeded
  | .signaled _ => .wrongAnswer
  | .runtimeError => .wrongAnswer
  | .systemError => .wrongAnswer

/-- The `output` field of an anigma testcase entry: stdout alone, or
stdout and stderr glued together when stderr is non-empty. -/
def anigma_output (run : ExecutionOutcome) : String :=
  if run.stderr.data = [] then run.stdout
  else "=== stdout ===\n" ++ run.stdout ++ "\n=== stderr ===\n" ++ run.stderr

/-- The per-testcase loop of `process_anigma_job`: like the judger loop,
but an entry's time/memory fields are populated only when that entry's
verdict is accepted (`anigma.rs` lines 206–218). -/
def anigma_run_testcases :
    List (AnigmaTestcase × AnigmaTcEnv) → List TestcaseResult × Verdict × Nat × Nat
  | [] => ([], .accepted, 0, 0)
  | (tc, e) :: rest =>
    let verdict := anigma_testcase_verdict e
    let execution_time := if verdict = .accepted then some e.run.time_ms else none
    let memory_used := if verdict = .accepted then some e.run.memory_kb else none
    let entry : TestcaseResult :=
      { testcase_id := tc.id, verdict := verdict.str,
        execution_time := execution_time, memory_used := memory_used,
        output := some ⟨(anigma_output e.run).data.take 4096⟩ }
    if verdict = .accepted then
      let r := anigma_run_testcases rest
      (entry :: r.1, r.2.1, max e.run.time_ms r.2.2.1, max e.run.memory_kb r.2.2.2)
    else
      ([entry], verdict, e.run.time_ms, e.run.memory_kb)

/-- The skipped entry of the skip-fill loop of `process_anigma_job`. -/
def anigma_skipped_result (tc : AnigmaTestcase) : TestcaseResult :=
  { testcase_id := tc.id, verdict := Verdict.skipped.str,
    execution_time := none, memory_used := none, output := none }

/-- Levenshtein edit distance, as `triple_accel::levenshtein` computes
on the two canonical source texts (modelled on characters instead of
UTF-8 bytes). -/
def levenshtein : List Char → List Char → Nat
  | [], b => b.length
  | a, [] => a.length
  | x :: xs, y :: ys =>
    if x = y then levenshtein xs ys
    else 1 + min (levenshtein xs (y :: ys)) (min (levenshtein (x :: xs) ys) (levenshtein xs ys))
  termination_by a b => a.length + b.length
  decreasing_by all_goals simp_arith

/-- `process_anigma_job` from `anigma.rs`.  Environment parameters:
whether a `Makefile`/`makefile` exists in the extracted archive, the
`make build` outcome, the submitted and reference canonical source texts
(as read by `read_all_source_files` / downloaded), and the per-testcase
environments.  Storage downloads are assumed to succeed. -/
def process_anigma_job (job : AnigmaJudgeJob) (makefile_exists : Bool)
    (build : ExecutionOutcome) (submitted_code reference_code : String)
    (env : Nat → AnigmaTcEnv) : AnigmaJudgeResult :=
  if makefile_exists = false then
    let base : AnigmaBaseResult :=
      { submission_id := job.submission_id, verdict := "compile_error",
        score := 0, execution_time := none, memory_used := none,
        testcase_results := [], error_message := some "Makefile not found" }
    { base := base, edit_distance := none }
  else if build.is_success = false then
    let base : AnigmaBaseResult :=
      { submission_id := job.submission_id, verdict := "compile_error",
        score := 0, execution_time := none, memory_used := none,
        testcase_results := [], error_message := some build.stderr }
    { base := base, edit_distance := none }
  else
    let pairs := job.testcases.enum.map (fun p => (p.2, env p.1))
    let r := anigma_run_testcases pairs
    let testcase_results :=
      r.1 ++ (job.testcases.drop r.1.length).map anigma_skipped_result
    let score : Int := if r.2.1 = .accepted then job.max_score else 0
    let edit_distance :=
      if reference_code.data = [] then none
      else some (levenshtein submitted_code.data reference_code.data)
    let base : AnigmaBaseResult :=
      { submission_id := job.submission_id,
        verdict := r.2.1.str, score := score,
        execution_time := if r.2.1 = .accepted then some r.2.2.1 else none,
        memory_used := if r.2.1 = .accepted then some r.2.2.2 else none,
        testcase_results := testcase_results, error_message := none }
    { base := base, edit_distance := edit_distance }

/-! ## Anigma Task-1 decision (`anigma.rs` lines 450–496) -/

/-- The outcome-matrix decision of `process_anigma_task1_job` over the
two runs A and B: returns the verdict and the score
(`TASK1_SCORE = 30`). -/
def anigma_task1_verdict_score (output_a output_b : ExecutionOutcome) : Verdict × Int :=
  let task1_score : Int := 30
  let a_success : Bool := output_a.status == ExecutionStatus.exited 0
  let b_success : Bool := output_b.status == ExecutionStatus.exited 0
  let a_runtime_error := !a_success
  let b_runtime_error := !b_success
  if a_runtime_error && b_runtime_error then
    (.systemError, 0)
  else if a_runtime_error && b_success then
    (.accepted, task1_score)
  else if a_success && b_runtime_error then
    (.systemError, 0)
  else
    let is_different : Bool := output_a.stdout != output_b.stdout
    (if is_different then .accepted else .wrongAnswer,
     if is_different then task1_score else 0)

/-! ## Playground Makefile mode (`jobs/playground/mod.rs`) -/

/-- `CreatedFile` from `jobs/playground/mod.rs`. -/
structure CreatedFile where
  path : String
  content_base64 : String
  is_binary : Bool
  deriving DecidableEq, Repr

/-- Whether a character list contains `".."` as a substring. -/
def contains_dotdot : List Char → Bool
  | [] => false
  | '.' :: '.' :: _ => true
  | _ :: rest => contains_dotdot rest

/-- `is_safe_path` from `jobs/playground/mod.rs`: reject absolute paths,
paths containing `".."`, and the empty path. -/
def is_safe_path (path : String) : Bool :=
  if path.data.head? = some '/' then false
  else if contains_dotdot path.data then false
  else if path.data = [] then false
  else true

/-- Rust `trim_start_matches("./")`: repeatedly strip a leading
`"./"`. -/
def trim_dot_slash : List Char → List Char
  | '.' :: '/' :: rest => trim_dot_slash rest
  | l => l

/-- `normalize_path` from `jobs/playground/mod.rs`: backslashes become
slashes, then leading `"./"` prefixes are stripped. -/
def normalize_path (path : String) : String :=
  ⟨trim_dot_slash (path.data.map (fun c => if c = '\\' then '/' else c))⟩

/-- The standard base64 alphabet (the `base64` crate's
`general_purpose::STANDARD` engine). -/
def base64_alphabet : List Char :=
  "ABCDEFGHIJKLMNOPQRSTUVWXYZabcdefghijklmnopqrstuvwxyz0123456789+/".data

/-- The base64 character for a 6-bit value. -/
def base64_char (i : Nat) : Char := base64_alphabet.getD i 'A'

/-- Standard base64 encoding with padding of a byte sequence, as
`general_purpose::STANDARD.encode` produces. -/
def base64_chars : List Nat → List Char
  | [] => []
  | [a] => [base64_char (a / 4), base64_char (a % 4 * 16), '=', '=']
  | [a, b] =>
      [base64_char (a / 4), base64_char (a % 4 * 16 + b / 16), base64_char (b % 16 * 4), '=']
  | a :: b :: c :: rest =>
      base64_char (a / 4) :: base64_char (a % 4 * 16 + b / 16) ::
        base64_char (b % 16 * 4 + c / 64) :: base64_char (c % 64) :: base64_chars rest

/-- `general_purpose::STANDARD.encode` as a `String`. -/
def base64_encode (bytes : List Nat) : String := ⟨base64_chars bytes⟩

/-- The output-file enumeration at the end of `process_makefile`
(`jobs/playground/mod.rs` lines 415–466): `files_after` is the recursive
listing of the working directory after the run (as produced by
`list_files_in_dir`), `file_name` the chosen input filename, and
`read_file` the filesystem: the bytes of the regular file at a
normalised relative path, or `none` when the path is not a readable
regular file. -/
def makefile_created_files (files_after : List String) (file_name : String)
    (read_file : String → Option (List Nat)) : List CreatedFile :=
  let all_output_files :=
    (files_after.filter (fun path => is_safe_path (normalize_path path))).filter
      (fun path =>
        let normalized := normalize_path path
        normalized != file_name && normalized != "stdout.txt" &&
          normalized != "stderr.txt" && normalized != "input.txt")
  all_output_files.filterMap (fun rel_path =>
    let normalized_path := normalize_path rel_path
    match read_file normalized_path with
    | some bytes =>
        some { path := normalized_path,
               content_base64 := base64_encode bytes,
               is_binary := false }
    | none => none)

/-! ## Concrete fixtures used to evaluate the pipeline on small inputs -/

/-- A testcase reference. -/
def w_tc : TestcaseInfo := { id := 1, input_path := "in", output_path := "out" }

/-- A run that exits with code 1 after printing `"x"`. -/
def w_run_re : ExecutionOutcome :=
  { status := .exited 1, time_ms := 12, memory_kb := 340,
    stdout := "x", stdout_bytes := [120], stderr := "" }

/-- A testcase environment whose run exits 1. -/
def w_env_re : TcEnv :=
  { input_content := "", expected_output := "x", run := w_run_re,
    checker_exit_code := none }

/-- A one-testcase icpc judge job. -/
def w_judge_job : JudgeJob :=
  { submission_id := 7, problem_id := 3, code := "c", language := "cpp",
    time_limit := 1000, ignore_time_limit_bonus := false,
    memory_limit := 256, ignore_memory_limit_bonus := false,
    testcases := [w_tc], problem_type := .icpc, checker_path := none }

/-- The entry `process_judge_job` records for `w_env_re`. -/
def w_entry_re : TestcaseResult :=
  { testcase_id := 1, verdict := "runtime_error",
    execution_time := some 12, memory_used := some 340, output := some "x" }

/-- An anigma testcase reference. -/
def w_atc : AnigmaTestcase := { id := 2, input_path := "in", expected_output_path := "out" }

/-- A one-testcase anigma job with no reference code. -/
def w_ajob : AnigmaJudgeJob :=
  { submission_id := 8, problem_id := 4, zip_path := "z", reference_code_path := "",
    time_limit := 1000, memory_limit := 256, max_score := 100,
    testcases := [w_atc], checker_path := none }

/-- An anigma testcase environment whose run exits 1. -/
def w_aenv_wa : AnigmaTcEnv := { input_data := [], run := w_run_re, expected := .ok "y" }

/-- A successful `make build` outcome. -/
def w_build_ok : ExecutionOutcome :=
  { status := .exited 0, time_ms := 5, memory_kb := 10,
    stdout := "", stdout_bytes := [], stderr := "" }

/-- The entry `process_anigma_job` records for `w_aenv_wa`. -/
def w_aentry_wa : TestcaseResult :=
  { testcase_id := 2, verdict := "wrong_answer",
    execution_time := none, memory_used := none, output := some "x" }

/-- Task-1 run A: exits 0 printing `"p"`. -/
def w_t1_a : ExecutionOutcome :=
  { status := .exited 0, time_ms := 3, memory_kb := 20,
    stdout := "p", stdout_bytes := [112], stderr := "" }

/-- Task-1 run B: exits 0 printing `"q"`. -/
def w_t1_b : ExecutionOutcome :=
  { status := .exited 0, time_ms := 4, memory_kb := 30,
    stdout := "q", stdout_bytes := [113], stderr := "" }

/-- A file the playground run leaves behind (bytes `00 01 FF`). -/
def w_created_file : CreatedFile :=
  { path := "out.bin", content_base64 := "AAH/", is_binary := false }

/-- A playground filesystem with a single readable file `out.bin`. -/
def w_read_file : String → Option (List Nat) :=
  fun p => if p = "out.bin" then some [0, 1, 255] else none

end AnaJudge

namespace AnaJudge

/-! ## Helper lemmas about splitting and trimming -/

theorem split_on_char_ne_nil (sep : Char) (l : List Char) : split_on_char sep l ≠ [] := by
  induction l with
  | nil => simp [split_on_char]
  | cons c cs ih =>
    by_cases hc : c = sep
    · simp [split_on_char, hc]
    · simp only [split_on_char, if_neg hc]
      rcases h : split_on_char sep cs with _ | ⟨a, as⟩ <;> simp

theorem split_on_char_all_ws (sep : Char) :
    ∀ ws : List Char, sep ∉ ws → split_on_char sep (ws ++ [sep]) = [ws, []] := by
  intro ws
  induction ws with
  | nil => intro _; simp [split_on_char]
  | cons w ws ih =>
    intro h
    have hw : ¬ (w = sep) := fun hh => h (by simp [hh])
    have hmem : sep ∉ ws := fun hh => h (by simp [hh])
    simp [split_on_char, if_neg hw, ih hmem]

theorem split_on_char_append_ws_sep (sep : Char) (ws : List Char) (hws : sep ∉ ws) :
    ∀ (xs : List Char) (dl : List (List Char)) (l : List Char),
      split_on_char sep xs = dl ++ [l] →
      split_on_char sep (xs ++ ws ++ [sep]) = dl ++ [l ++ ws, []] := by
  intro xs
  induction xs with
  | nil =>
    intro dl l h
    simp only [split_on_char] at h
    have hdl : dl = [] ∧ l = [] := by
      cases dl with
      | nil => simpa using h.symm
      | cons a as =>
        exfalso
        have := congrArg List.length h
        simp at this
    rcases hdl with ⟨h1, h2⟩
    subst h1; subst h2
    simpa using split_on_char_all_ws sep ws hws
  | cons c cs ih =>
    intro dl l h
    rcases List.eq_nil_or_concat (split_on_char sep cs) with hnil | ⟨dl', l', hsp⟩
    · exact absurd hnil (split_on_char_ne_nil sep cs)
    · rw [List.concat_eq_append] at hsp
      by_cases hc : c = sep
      · have hval : split_on_char sep (c :: cs) = ([] : List Char) :: (dl' ++ [l']) := by
          simp [split_on_char, hc, hsp]
        rw [hval] at h
        have h' : (([] : List Char) :: dl') ++ [l'] = dl ++ [l] := by simpa using h
        obtain ⟨hdl, hl⟩ := List.append_inj' h' rfl
        have hl' : l' = l := by simpa using hl
        rw [hl'] at hsp
        subst hdl
        have hrest := ih dl' l hsp
        rw [List.append_assoc] at hrest
        simp [split_on_char, hc, hrest]
      · cases dl' with
        | nil =>
          simp only [List.nil_append] at hsp
          have hval : split_on_char sep (c :: cs) = [c :: l'] := by
            simp [split_on_char, hc, hsp]
          rw [hval] at h
          have hdl : dl = [] ∧ l = c :: l' := by
            cases dl with
            | nil => simpa using h.symm
            | cons a as =>
              exfalso
              have := congrArg List.length h
              simp at this
          rcases hdl with ⟨h1, h2⟩
          subst h1; subst h2
          have hrest := ih [] l' hsp
          simp only [List.nil_append] at hrest
          rw [List.append_assoc] at hrest
          simp [split_on_char, hc, hrest]
        | cons d ds =>
          have hval : split_on_char sep (c :: cs) = (c :: d) :: (ds ++ [l']) := by
            simp [split_on_char, hc, hsp]
          rw [hval] at h
          have h' : ((c :: d) :: ds) ++ [l'] = dl ++ [l] := by simpa using h
          obtain ⟨hdl, hl⟩ := List.append_inj' h' rfl
          have hl' : l' = l := by simpa using hl
          rw [hl'] at hsp
          subst hdl
          have hrest := ih (d :: ds) l hsp
          rw [List.append_assoc] at hrest
          simp [split_on_char, hc, hrest]

theorem dropWhile_append_of_all {p : Char → Bool} :
    ∀ b t : List Char, (∀ c ∈ b, p c = true) →
      List.dropWhile p (b ++ t) = List.dropWhile p t := by
  intro b
  induction b with
  | nil => intro t _; rfl
  | cons x xs ih =>
    intro t h
    have hx : p x = true := h x (by simp)
    simp only [List.cons_append, List.dropWhile, hx]
    exact ih t fun c hc => h c (by simp [hc])

theorem trim_end_append_ws (a ws : List Char) (h : ∀ c ∈ ws, c.isWhitespace = true) :
    trim_end_chars (a ++ ws) = trim_end_chars a := by
  unfold trim_end_chars
  rw [List.reverse_append]
  congr 1
  exact dropWhile_append_of_all ws.reverse a.reverse (fun c hc => h c (by simpa using hc))

theorem trim_end_strip_cr (l : List Char) :
    trim_end_chars (strip_cr l) = trim_end_chars l := by
  unfold strip_cr
  split
  · next hl =>
    rcases List.eq_nil_or_concat l with rfl | ⟨m, b, hmb⟩
    · simp at hl
    · rw [List.concat_eq_append] at hmb
      subst hmb
      rw [List.getLast?_concat] at hl
      have hb : b = '\r' := by simpa using hl
      subst hb
      rw [List.dropLast_concat]
      exact (trim_end_append_ws m ['\r'] (by decide)).symm
  · rfl

theorem trim_trailing_concat_empty (xs : List (List Char)) :
    trim_trailing_empty (xs ++ [[]]) = trim_trailing_empty xs := by
  unfold trim_trailing_empty
  rw [List.reverse_append]
  simp [List.dropWhile]

theorem rust_lines_of_concat (s : List Char) (dl : List (List Char)) (l : List Char)
    (h : split_on_char '\n' s = dl ++ [l]) :
    rust_lines s = dl.map strip_cr ++ (if l = [] then [] else [l]) := by
  unfold rust_lines
  rw [h]
  simp only [List.dropLast_concat, List.getLast?_concat]

/-! ## Helper lemmas about verdicts and the judging loops -/

theorem verdict_str_accepted (v : Verdict) : v.str = "accepted" ↔ v = .accepted := by
  cases v <;> decide

theorem verdict_str_skipped (v : Verdict) : v.str = "skipped" ↔ v = .skipped := by
  cases v <;> decide

theorem exit_code_to_verdict_ne_skipped (c : Int) : exit_code_to_verdict c ≠ .skipped := by
  unfold exit_code_to_verdict
  split_ifs <;> decide

theorem testcase_verdict_ne_skipped (sj : Bool) (e : TcEnv) :
    testcase_verdict sj e ≠ .skipped := by
  unfold testcase_verdict
  cases e.run.status with
  | exited code =>
    dsimp only
    split_ifs
    · cases e.checker_exit_code with
      | some c => exact exit_code_to_verdict_ne_skipped c
      | none => decide
    · decide
    · decide
    · decide
  | timeLimitExceeded => dsimp only; decide
  | memoryLimitExceeded => dsimp only; decide
  | signaled sig => dsimp only; decide
  | runtimeError => dsimp only; decide
  | systemError => dsimp only; decide

theorem run_testcases_length_le (sj : Bool) :
    ∀ L : List (TestcaseInfo × TcEnv), (run_testcases sj L).1.length ≤ L.length := by
  intro L
  induction L with
  | nil => simp [run_testcases]
  | cons p rest ih =>
    obtain ⟨tc, e⟩ := p
    by_cases hv : testcase_verdict sj e = .accepted
    · simp only [run_testcases, if_pos hv, List.length_cons]
      omega
    · simp only [run_testcases, if_neg hv, List.length_cons, List.length_nil]
      omega

theorem run_testcases_ids (sj : Bool) :
    ∀ L : List (TestcaseInfo × TcEnv),
      (run_testcases sj L).1.map (fun r => r.testcase_id) =
        (L.map (fun p => p.1.id)).take (run_testcases sj L).1.length := by
  intro L
  induction L with
  | nil => simp [run_testcases]
  | cons p rest ih =>
    obtain ⟨tc, e⟩ := p
    by_cases hv : testcase_verdict sj e = .accepted
    · simp only [run_testcases, if_pos hv, List.map_cons, List.length_cons,
        List.take_succ_cons]
      rw [ih]
    · simp only [run_testcases, if_neg hv, List.map_cons, List.map_nil,
        List.length_singleton, List.take_succ_cons, List.take_zero]

theorem run_testcases_prefix_accepted (sj : Bool) :
    ∀ (L : List (TestcaseInfo × TcEnv)) (i : Nat) (e : TestcaseResult),
      (run_testcases sj L).1.get? i = some e →
      i + 1 < (run_testcases sj L).1.length →
      e.verdict = "accepted" := by
  intro L
  induction L with
  | nil => intro i e hget hlt; simp [run_testcases] at hget
  | cons p rest ih =>
    obtain ⟨tc, e0⟩ := p
    intro i e hget hlt
    by_cases hv : testcase_verdict sj e0 = .accepted
    · simp only [run_testcases, if_pos hv] at hget hlt
      cases i with
      | zero =>
        simp only [List.get?] at hget
        cases hget
        simpa [Verdict.str] using congrArg Verdict.str hv
      | succ n =>
        simp only [List.get?] at hget
        simp only [List.length_cons] at hlt
        exact ih n e hget (by omega)
    · simp only [run_testcases, if_neg hv] at hget hlt
      simp only [List.length_singleton] at hlt
      omega

theorem run_testcases_resources (sj : Bool) :
    ∀ L : List (TestcaseInfo × TcEnv), ∀ e ∈ (run_testcases sj L).1,
      e.execution_time ≠ none ∧ e.memory_used ≠ none ∧ e.verdict ≠ "skipped" := by
  intro L
  induction L with
  | nil => intro e he; simp [run_testcases] at he
  | cons p rest ih =>
    obtain ⟨tc, e0⟩ := p
    intro e he
    have hstr : (testcase_verdict sj e0).str ≠ "skipped" := by
      intro hcontra
      exact testcase_verdict_ne_skipped sj e0 ((verdict_str_skipped _).1 hcontra)
    by_cases hv : testcase_verdict sj e0 = .accepted
    · simp only [run_testcases, if_pos hv] at he
      rcases List.mem_cons.1 he with rfl | hmem
      · exact ⟨by simp, by simp, hstr⟩
      · exact ih e hmem
    · simp only [run_testcases, if_neg hv] at he
      rcases List.mem_cons.1 he with rfl | hmem
      · exact ⟨by simp, by simp, hstr⟩
      · simp at hmem

theorem anigma_run_testcases_resources :
    ∀ L : List (AnigmaTestcase × AnigmaTcEnv), ∀ e ∈ (anigma_run_testcases L).1,
      (e.execution_time ≠ none ↔ e.verdict = "accepted") ∧
      (e.memory_used ≠ none ↔ e.verdict = "accepted") := by
  intro L
  induction L with
  | nil => intro e he; simp [anigma_run_testcases] at he
  | cons p rest ih =>
    obtain ⟨tc, e0⟩ := p
    intro e he
    by_cases hv : anigma_testcase_verdict e0 = .accepted
    · simp only [anigma_run_testcases, if_pos hv] at he
      rcases List.mem_cons.1 he with rfl | hmem
      · constructor <;> simp [if_pos hv, hv, verdict_str_accepted]
      · exact ih e hmem
    · simp only [anigma_run_testcases, if_neg hv] at he
      rcases List.mem_cons.1 he with rfl | hmem
      · constructor <;> simp [if_neg hv, hv, verdict_str_accepted]
      · simp at hmem

theorem skipped_map_facts (l : List TestcaseInfo) :
    ∀ e ∈ l.map skipped_result,
      e.verdict = "skipped" ∧ e.execution_time = none ∧ e.memory_used = none := by
  intro e he
  rcases List.mem_map.1 he with ⟨tc, _, rfl⟩
  exact ⟨rfl, rfl, rfl⟩

theorem anigma_skipped_map_facts (l : List AnigmaTestcase) :
    ∀ e ∈ l.map anigma_skipped_result,
      e.verdict = "skipped" ∧ e.execution_time = none ∧ e.memory_used = none := by
  intro e he
  rcases List.mem_map.1 he with ⟨tc, _, rfl⟩
  exact ⟨rfl, rfl, rfl⟩

theorem is_safe_path_spec (p : String) (h : is_safe_path p = true) :
    p.data.head? ≠ some '/' ∧ contains_dotdot p.data = false ∧ p ≠ "" := by
  unfold is_safe_path at h
  split_ifs at h with h1 h2 h3
  refine ⟨h1, by simpa using h2, ?_⟩
  intro hp
  exact h3 (by rw [hp])

theorem exec_skip_spec (sj : Bool) (tcs : List TestcaseInfo)
    (pairs : List (TestcaseInfo × TcEnv))
    (hplen : pairs.length = tcs.length)
    (hpids : pairs.map (fun p => p.1.id) = tcs.map (fun tc => tc.id))
    (rs : List TestcaseResult) (hrs : rs = (run_testcases sj pairs).1) :
    ((rs ++ (tcs.drop rs.length).map skipped_result).map (fun r => r.testcase_id) =
      tcs.map (fun tc => tc.id)) ∧
    ((rs ++ (tcs.drop rs.length).map skipped_result).length = tcs.length) ∧
    (∀ i j e1 e2, i < j →
      (rs ++ (tcs.drop rs.length).map skipped_result).get? i = some e1 →
      (rs ++ (tcs.drop rs.length).map skipped_result).get? j = some e2 →
      e1.verdict ≠ "accepted" →
      e2.verdict = "skipped" ∧ e2.execution_time = none ∧ e2.memory_used = none) := by
  have hlen_le : rs.length ≤ tcs.length := by
    have h1 := run_testcases_length_le sj pairs
    rw [← hrs] at h1
    omega
  have hexec : rs.map (fun r => r.testcase_id) =
      (tcs.map (fun tc => tc.id)).take rs.length := by
    have h2 := run_testcases_ids sj pairs
    rw [← hrs] at h2
    rw [h2, hpids]
  have hskip : ((tcs.drop rs.length).map skipped_result).map (fun r => r.testcase_id) =
      (tcs.map (fun tc => tc.id)).drop rs.length := by
    rw [List.map_map]
    have hcomp : ((fun r : TestcaseResult => r.testcase_id) ∘ skipped_result) =
        (fun tc : TestcaseInfo => tc.id) := rfl
    rw [hcomp, List.map_drop]
  have hmap : (rs ++ (tcs.drop rs.length).map skipped_result).map (fun r => r.testcase_id) =
      tcs.map (fun tc => tc.id) := by
    rw [List.map_append, hexec, hskip, List.take_append_drop]
  refine ⟨hmap, ?_, ?_⟩
  · have hl := congrArg List.length hmap
    simpa using hl
  · intro i j e1 e2 hij h1 h2 hne
    by_cases hj : j < rs.length
    · exfalso
      have hi : i < rs.length := by omega
      rw [List.get?_append hi] at h1
      have hlt : i + 1 < (run_testcases sj pairs).1.length := by
        rw [← hrs]; omega
      exact hne (run_testcases_prefix_accepted sj pairs i e1 (hrs ▸ h1) hlt)
    · have hjge : rs.length ≤ j := by omega
      rw [List.get?_append_right hjge] at h2
      exact skipped_map_facts _ e2 (List.get?_mem h2)

theorem judge_after_checker_spec (job : JudgeJob) (sj : Bool) (env : Nat → TcEnv) :
    ((judge_after_checker job sj env).testcase_results.map (fun r => r.testcase_id) =
      job.testcases.map (fun tc => tc.id)) ∧
    ((judge_after_checker job sj env).testcase_results.length = job.testcases.length) ∧
    (∀ i j e1 e2, i < j →
      (judge_after_checker job sj env).testcase_results.get? i = some e1 →
      (judge_after_checker job sj env).testcase_results.get? j = some e2 →
      e1.verdict ≠ "accepted" →
      e2.verdict = "skipped" ∧ e2.execution_time = none ∧ e2.memory_used = none) := by
  have hpids : (job.testcases.enum.map (fun p => (p.2, env p.1))).map (fun p => p.1.id) =
      job.testcases.map (fun tc => tc.id) := by
    rw [List.map_map]
    have hcomp : ((fun p : TestcaseInfo × TcEnv => p.1.id) ∘
        (fun p : Nat × TestcaseInfo => (p.2, env p.1))) =
        ((fun tc : TestcaseInfo => tc.id) ∘ Prod.snd) := rfl
    rw [hcomp, ← List.map_map]
    rw [show job.testcases.enum.map Prod.snd = job.testcases from
      List.enumFrom_map_snd 0 job.testcases]
  have hplen : (job.testcases.enum.map (fun p => (p.2, env p.1))).length =
      job.testcases.length := by
    simp [List.enum_eq_enumFrom]
  exact exec_skip_spec sj job.testcases _ hplen hpids
    (run_testcases sj (job.testcases.enum.map (fun p => (p.2, env p.1)))).1 rfl

theorem process_judge_job_shape (job : JudgeJob) (compile_needed : Bool)
    (compile_result : CompileResult) (checker_resolution : Except String Unit)
    (env : Nat → TcEnv) :
    (∃ msg, process_judge_job job compile_needed compile_result checker_resolution env =
      { submission_id := job.submission_id, verdict := Verdict.compileError.str,
        execution_time := none, memory_used := none, testcase_results := [],
        error_message := msg }) ∨
    (∃ msg, process_judge_job job compile_needed compile_result checker_resolution env =
      { submission_id := job.submission_id, verdict := Verdict.systemError.str,
        execution_time := none, memory_used := none, testcase_results := [],
        error_message := msg }) ∨
    (∃ sj, process_judge_job job compile_needed compile_result checker_resolution env =
      judge_after_checker job sj env) := by
  unfold process_judge_job
  split
  · exact Or.inl ⟨compile_result.message, rfl⟩
  · split
    · split
      · split
        · exact Or.inr (Or.inr ⟨true, rfl⟩)
        · exact Or.inr (Or.inl ⟨_, rfl⟩)
      · exact Or.inr (Or.inl ⟨_, rfl⟩)
    · exact Or.inr (Or.inr ⟨false, rfl⟩)

/-! ## Theorems: C4, C7, C8 -/

/-- C6: the icpc output comparison is reflexive and invariant under a
trailing newline and under trailing whitespace on a line: for every
string `s`, `compare_output s s`, `compare_output s (s ++ "\n")` and
`compare_output (s ++ "  \n") (s ++ "\n")` all hold. -/
theorem compare_output_invariance (s : String) :
    compare_output s s = true ∧
    compare_output s (s ++ "\n") = true ∧
    compare_output (s ++ "  \n") (s ++ "\n") = true := by
  obtain ⟨dl0, l, h⟩ : ∃ dl0 l, split_on_char '\n' s.data = dl0 ++ [l] := by
    rcases List.eq_nil_or_concat (split_on_char '\n' s.data) with hnil | ⟨dl0, l, hc⟩
    · exact absurd hnil (split_on_char_ne_nil _ _)
    · exact ⟨dl0, l, by rw [hc, List.concat_eq_append]⟩
  have hdata1 : (s ++ "\n").data = s.data ++ ['\n'] := by
    rw [String.data_append]
  have hdata2 : (s ++ "  \n").data = s.data ++ ([' ', ' '] ++ ['\n']) := by
    rw [String.data_append]
    rfl
  have hs1 : split_on_char '\n' (s.data ++ ['\n']) = (dl0 ++ [l]) ++ [[]] := by
    have h1 := split_on_char_append_ws_sep '\n' [] (by simp) s.data dl0 l h
    simpa using h1
  have hs2 : split_on_char '\n' (s.data ++ ([' ', ' '] ++ ['\n'])) =
      (dl0 ++ [l ++ [' ', ' ']]) ++ [[]] := by
    have h2 := split_on_char_append_ws_sep '\n' [' ', ' '] (by decide) s.data dl0 l h
    simpa [List.append_assoc] using h2
  have hr0 : rust_lines s.data = dl0.map strip_cr ++ (if l = [] then [] else [l]) :=
    rust_lines_of_concat _ _ _ h
  have hr1 : rust_lines (s.data ++ ['\n']) = (dl0 ++ [l]).map strip_cr := by
    rw [rust_lines_of_concat _ _ _ hs1]
    simp
  have hr2 : rust_lines (s.data ++ ([' ', ' '] ++ ['\n'])) =
      (dl0 ++ [l ++ [' ', ' ']]).map strip_cr := by
    rw [rust_lines_of_concat _ _ _ hs2]
    simp
  have hwsp : ∀ c ∈ [' ', ' '], Char.isWhitespace c = true := by decide
  refine ⟨?_, ?_, ?_⟩
  · simp [compare_output]
  · have key : trim_trailing_empty (normalize_output (s.data ++ ['\n'])) =
        trim_trailing_empty (normalize_output s.data) := by
      unfold normalize_output
      by_cases hl : l = []
      · subst hl
        have hr0' : rust_lines s.data = dl0.map strip_cr := by rw [hr0]; simp
        rw [hr0', hr1]
        have hm : List.map trim_end_chars (List.map strip_cr (dl0 ++ [[]])) =
            List.map trim_end_chars (List.map strip_cr dl0) ++ [[]] := by
          simp [List.map_append, strip_cr, trim_end_chars]
        rw [hm, trim_trailing_concat_empty]
      · have hr0' : rust_lines s.data = dl0.map strip_cr ++ [l] := by
          rw [hr0, if_neg hl]
        rw [hr0', hr1]
        congr 1
        simp only [List.map_append, List.map_map]
        congr 1
        simp [Function.comp, trim_end_strip_cr]
    unfold compare_output
    rw [hdata1, key]
    simp
  · have key : trim_trailing_empty (normalize_output (s.data ++ ([' ', ' '] ++ ['\n']))) =
        trim_trailing_empty (normalize_output (s.data ++ ['\n'])) := by
      unfold normalize_output
      rw [hr1, hr2]
      congr 1
      simp only [List.map_append, List.map_map]
      congr 1
      simp only [List.map, Function.comp]
      rw [trim_end_strip_cr, trim_end_strip_cr, trim_end_append_ws l [' ', ' '] hwsp]
    unfold compare_output
    rw [hdata1, hdata2, key]
    simp

/-- C4: the special-judge checker exit-code table: 0 ↦ accepted,
1 ↦ wrong_answer, 2 ↦ presentation_error, 3 ↦ fail, 4 ↦ wrong_answer,
8 ↦ wrong_answer; any code < 0 or > 127 ↦ system_error; every other
code ↦ wrong_answer. -/
theorem checker_exit_code_table :
    exit_code_to_verdict 0 = .accepted ∧
    exit_code_to_verdict 1 = .wrongAnswer ∧
    exit_code_to_verdict 2 = .presentationError ∧
    exit_code_to_verdict 3 = .fail ∧
    exit_code_to_verdict 4 = .wrongAnswer ∧
    exit_code_to_verdict 8 = .wrongAnswer ∧
    (∀ c : Int, (c < 0 ∨ c > 127) → exit_code_to_verdict c = .systemError) ∧
    (∀ c : Int, 0 ≤ c → c ≤ 127 → c ≠ 0 → c ≠ 1 → c ≠ 2 → c ≠ 3 → c ≠ 4 → c ≠ 8 →
      exit_code_to_verdict c = .wrongAnswer) := by
  refine ⟨rfl, rfl, rfl, rfl, rfl, rfl, ?_, ?_⟩
  · intro c hc
    have h0 : c ≠ 0 := by rcases hc with h | h <;> omega
    have h1 : c ≠ 1 := by rcases hc with h | h <;> omega
    have h2 : c ≠ 2 := by rcases hc with h | h <;> omega
    have h3 : c ≠ 3 := by rcases hc with h | h <;> omega
    have h4 : c ≠ 4 := by rcases hc with h | h <;> omega
    have h8 : c ≠ 8 := by rcases hc with h | h <;> omega
    simp [exit_code_to_verdict, h0, h1, h2, h3, h4, h8, hc]
  · intro c hge hle h0 h1 h2 h3 h4 h8
    have : ¬ (c < 0 ∨ c > 127) := by omega
    simp [exit_code_to_verdict, h0, h1, h2, h3, h4, h8, this]

/-- Witness for C4: the table evaluated at concrete exit codes,
including a negative code, an out-of-range code and an unnamed in-range
code. -/
theorem checker_exit_code_table_witness :
    exit_code_to_verdict (-1) = .systemError ∧
    exit_code_to_verdict 128 = .systemError ∧
    exit_code_to_verdict 5 = .wrongAnswer := by
  refine ⟨?_, ?_, ?_⟩
  · exact checker_exit_code_table.2.2.2.2.2.2.1 (-1) (by decide)
  · exact checker_exit_code_table.2.2.2.2.2.2.1 128 (by decide)
  · exact checker_exit_code_table.2.2.2.2.2.2.2 5 (by decide) (by decide)
      (by decide) (by decide) (by decide) (by decide) (by decide) (by decide)

/-- C7: for a worker index `w ≤ 9`, every box id either allocator emits
lies in `[w*1000, w*1000 + 999]`, for every counter value and
per-testcase index. -/
theorem box_id_in_worker_range (w counter base_counter testcase_idx : Nat)
    (hw : w ≤ 9) :
    (w * 1000 ≤ next_box_id w counter ∧ next_box_id w counter ≤ w * 1000 + 999) ∧
    (w * 1000 ≤ calculate_box_id w base_counter testcase_idx ∧
      calculate_box_id w base_counter testcase_idx ≤ w * 1000 + 999) := by
  have hc : counter % 1000 < 1000 := Nat.mod_lt _ (by omega)
  have ht : (base_counter * 10 + testcase_idx) % u32Mod % 1000 < 1000 :=
    Nat.mod_lt _ (by omega)
  have hwm : w % 10 = w := Nat.mod_eq_of_lt (by omega)
  constructor
  · unfold next_box_id
    have hlt : w * 1000 + counter % 1000 < u32Mod := by unfold u32Mod; omega
    rw [Nat.mod_eq_of_lt hlt]
    omega
  · unfold calculate_box_id
    simp only [hwm]
    have hlt : w * 1000 + (base_counter * 10 + testcase_idx) % u32Mod % 1000 < u32Mod := by
      unfold u32Mod; omega
    rw [Nat.mod_eq_of_lt hlt]
    omega

/-- Witness for C7: worker 9, a counter past one wrap, and a large
testcase index stay inside `[9000, 9999]`. -/
theorem box_id_in_worker_range_witness :
    (9 * 1000 ≤ next_box_id 9 1234 ∧ next_box_id 9 1234 ≤ 9 * 1000 + 999) ∧
    (9 * 1000 ≤ calculate_box_id 9 123 7 ∧
      calculate_box_id 9 123 7 ≤ 9 * 1000 + 999) :=
  box_id_in_worker_range 9 1234 123 7 (by decide)

/-- C8: when a `(multiplier, bonus)` pair is configured and the result
does not overflow `u32`, the effective time limit is
`base_ms * multiplier + bonus_seconds * 1000` and the effective memory
limit is `base_mb * multiplier + bonus_mb`; when no pair is configured
each function returns its base limit unchanged. -/
theorem language_limits_formula (c : LanguageConfig)
    (tm tb mm mb base_ms base_mb : Nat)
    (htime : c.time_limit = some (tm, tb))
    (hmem : c.memory_limit = some (mm, mb))
    (htof : base_ms * tm + tb * 1000 < u32Mod)
    (hmof : base_mb * mm + mb < u32Mod) :
    c.calculate_time_limit base_ms = base_ms * tm + tb * 1000 ∧
    c.calculate_memory_limit base_mb = base_mb * mm + mb ∧
    (∀ c' : LanguageConfig, c'.time_limit = none →
      ∀ b, c'.calculate_time_limit b = b) ∧
    (∀ c' : LanguageConfig, c'.memory_limit = none →
      ∀ b, c'.calculate_memory_limit b = b) := by
  refine ⟨?_, ?_, ?_, ?_⟩
  · simp [LanguageConfig.calculate_time_limit, htime, Nat.mod_eq_of_lt htof]
  · simp [LanguageConfig.calculate_memory_limit, hmem, Nat.mod_eq_of_lt hmof]
  · intro c' h b; simp [LanguageConfig.calculate_time_limit, h]
  · intro c' h b; simp [LanguageConfig.calculate_memory_limit, h]

/-- C2: derivation of the execution status from an isolate meta file, in
terms of the parse-loop state: a valid `exitsig` key yields
`Signaled(sig)`; otherwise status `TO` yields TimeLimitExceeded, `SG`
yields Signaled(0), `RE` or an empty status with a non-zero exit code
yields RuntimeError, `XX` yields SystemError, and an empty status with
exit code 0 yields Exited(0); in every case the result is afterwards
upgraded to MemoryLimitExceeded exactly when the reported memory exceeds
the memory limit in KiB. -/
theorem meta_status_mapping (lines : List String) (memory_mb : Nat) :
    (∀ sig, (parse_meta_state lines).status = .signal sig →
      execution_status_of lines memory_mb =
        if (parse_meta_state lines).memory_kb > memory_mb * 1024 % u32Mod then
          .memoryLimitExceeded else .signaled sig) ∧
    ((parse_meta_state lines).status = .ok →
      ((parse_meta_state lines).status_str = "TO" →
        execution_status_of lines memory_mb =
          if (parse_meta_state lines).memory_kb > memory_mb * 1024 % u32Mod then
            .memoryLimitExceeded else .timeLimitExceeded) ∧
      ((parse_meta_state lines).status_str = "SG" →
        execution_status_of lines memory_mb =
          if (parse_meta_state lines).memory_kb > memory_mb * 1024 % u32Mod then
            .memoryLimitExceeded else .signaled 0) ∧
      ((parse_meta_state lines).status_str = "RE" →
        execution_status_of lines memory_mb =
          if (parse_meta_state lines).memory_kb > memory_mb * 1024 % u32Mod then
            .memoryLimitExceeded else .runtimeError) ∧
      ((parse_meta_state lines).status_str = "XX" →
        execution_status_of lines memory_mb =
          if (parse_meta_state lines).memory_kb > memory_mb * 1024 % u32Mod then
            .memoryLimitExceeded else .systemError) ∧
      ((parse_meta_state lines).status_str = "" →
        (parse_meta_state lines).exit_code ≠ 0 →
        execution_status_of lines memory_mb =
          if (parse_meta_state lines).memory_kb > memory_mb * 1024 % u32Mod then
            .memoryLimitExceeded else .runtimeError) ∧
      ((parse_meta_state lines).status_str = "" →
        (parse_meta_state lines).exit_code = 0 →
        execution_status_of lines memory_mb =
          if (parse_meta_state lines).memory_kb > memory_mb * 1024 % u32Mod then
            .memoryLimitExceeded else .exited 0)) := by
  constructor
  · intro sig hs
    unfold execution_status_of parse_meta meta_to_execution_status
    simp only [hs]
    by_cases hm : (parse_meta_state lines).memory_kb > memory_mb * 1024 % u32Mod <;>
      simp [hm]
  · intro hok
    refine ⟨?_, ?_, ?_, ?_, ?_, ?_⟩ <;> intro hss <;>
      [skip; skip; skip; skip; intro hec; intro hec] <;>
      unfold execution_status_of parse_meta meta_to_execution_status <;>
      simp only [hok, hss] <;>
      by_cases hm : (parse_meta_state lines).memory_kb > memory_mb * 1024 % u32Mod <;>
      simp_all

/-- Witness for C2: concrete meta files for each mapping case, with a
memory limit of 512 MiB (524288 KiB) that is not exceeded, plus one
memory-upgrade case. -/
theorem meta_status_mapping_witness :
    execution_status_of ["status:SG", "exitsig:11"] 512 = .signaled 11 ∧
    execution_status_of ["time:1.000", "status:TO"] 512 = .timeLimitExceeded ∧
    execution_status_of ["status:SG"] 512 = .signaled 0 ∧
    execution_status_of ["status:RE", "exitcode:1"] 512 = .runtimeError ∧
    execution_status_of ["status:XX"] 512 = .systemError ∧
    execution_status_of ["exitcode:7"] 512 = .runtimeError ∧
    execution_status_of ["exitcode:0", "cg-mem:1024"] 512 = .exited 0 ∧
    execution_status_of ["exitcode:0", "cg-mem:600000"] 512 = .memoryLimitExceeded := by
  refine ⟨?_, ?_, ?_, ?_, ?_, ?_, ?_, ?_⟩
  · exact ((meta_status_mapping ["status:SG", "exitsig:11"] 512).1 11 (by decide)).trans
      (by decide)
  · exact (((meta_status_mapping ["time:1.000", "status:TO"] 512).2 (by decide)).1
      (by decide)).trans (by decide)
  · exact (((meta_status_mapping ["status:SG"] 512).2 (by decide)).2.1
      (by decide)).trans (by decide)
  · exact (((meta_status_mapping ["status:RE", "exitcode:1"] 512).2 (by decide)).2.2.1
      (by decide)).trans (by decide)
  · exact (((meta_status_mapping ["status:XX"] 512).2 (by decide)).2.2.2.1
      (by decide)).trans (by decide)
  · exact (((meta_status_mapping ["exitcode:7"] 512).2 (by decide)).2.2.2.2.1
      (by decide) (by decide)).trans (by decide)
  · exact (((meta_status_mapping ["exitcode:0", "cg-mem:1024"] 512).2 (by decide)).2.2.2.2.2
      (by decide) (by decide)).trans (by decide)
  · exact (((meta_status_mapping ["exitcode:0", "cg-mem:600000"] 512).2 (by decide)).2.2.2.2.2
      (by decide) (by decide)).trans (by decide)

/-- Witness for C8: the Python-style pair (×3 time, +2 s; ×2 memory,
+32 MiB) applied to a 1000 ms / 256 MiB base. -/
theorem language_limits_formula_witness :
    ({ source_file := "main.py", compile_command := none,
       run_command := ["python3", "main.py"],
       time_limit := some (3, 2), memory_limit := some (2, 32) } :
      LanguageConfig).calculate_time_limit 1000 = 1000 * 3 + 2 * 1000 ∧
    ({ source_file := "main.py", compile_command := none,
       run_command := ["python3", "main.py"],
       time_limit := some (3, 2), memory_limit := some (2, 32) } :
      LanguageConfig).calculate_memory_limit 256 = 256 * 2 + 32 := by
  have h := language_limits_formula
    { source_file := "main.py", compile_command := none,
      run_command := ["python3", "main.py"],
      time_limit := some (3, 2), memory_limit := some (2, 32) }
    3 2 2 32 1000 256 rfl rfl (by decide) (by decide)
  exact ⟨h.1, h.2.1⟩

/-- C1 (amended): for every judge job that reaches the per-testcase
phase — its compile step succeeds and, when the problem is
special-judge, a checker path is present and resolves — the result's
`testcase_results` has exactly one entry per testcase, entry `i` carries
the id of testcase `i`, and every entry after the first non-accepted
entry has verdict `skipped` with null execution_time and memory_used.
(The unamended claim fails on the compile-error path, which publishes an
empty `testcase_results`.) -/
theorem judge_testcase_results_aligned (job : JudgeJob) (compile_needed : Bool)
    (compile_result : CompileResult) (checker_resolution : Except String Unit)
    (env : Nat → TcEnv)
    (hcompile : ¬ (compile_needed = true ∧ compile_result.success = false))
    (hchecker : job.problem_type = .specialJudge →
      job.checker_path.isSome ∧ checker_resolution = .ok ()) :
    ((process_judge_job job compile_needed compile_result checker_resolution
        env).testcase_results.length = job.testcases.length) ∧
    ((process_judge_job job compile_needed compile_result checker_resolution
        env).testcase_results.map (fun r => r.testcase_id) =
      job.testcases.map (fun tc => tc.id)) ∧
    (∀ i j e1 e2, i < j →
      (process_judge_job job compile_needed compile_result checker_resolution
        env).testcase_results.get? i = some e1 →
      (process_judge_job job compile_needed compile_result checker_resolution
        env).testcase_results.get? j = some e2 →
      e1.verdict ≠ "accepted" →
      e2.verdict = "skipped" ∧ e2.execution_time = none ∧ e2.memory_used = none) := by
  have hr : ∃ sj, process_judge_job job compile_needed compile_result checker_resolution env =
      judge_after_checker job sj env := by
    unfold process_judge_job
    rw [if_neg hcompile]
    cases hpt : job.problem_type with
    | icpc => exact ⟨false, rfl⟩
    | specialJudge =>
      obtain ⟨hsome, hok⟩ := hchecker hpt
      obtain ⟨p, hp⟩ := Option.isSome_iff_exists.1 hsome
      exact ⟨true, by rw [hp, hok]⟩
  obtain ⟨sj, hr⟩ := hr
  rw [hr]
  have h := judge_after_checker_spec job sj env
  exact ⟨h.2.1, h.1, h.2.2⟩

/-- Witness for C1: a one-testcase icpc job with a successful compile
satisfies the amended invariant. -/
theorem judge_testcase_results_aligned_witness :
    ((process_judge_job w_judge_job false { success := true, message := none }
        (.ok ()) (fun _ => w_env_re)).testcase_results.length =
      w_judge_job.testcases.length) ∧
    ((process_judge_job w_judge_job false { success := true, message := none }
        (.ok ()) (fun _ => w_env_re)).testcase_results.map (fun r => r.testcase_id) =
      w_judge_job.testcases.map (fun tc => tc.id)) ∧
    (∀ i j e1 e2, i < j →
      (process_judge_job w_judge_job false { success := true, message := none }
        (.ok ()) (fun _ => w_env_re)).testcase_results.get? i = some e1 →
      (process_judge_job w_judge_job false { success := true, message := none }
        (.ok ()) (fun _ => w_env_re)).testcase_results.get? j = some e2 →
      e1.verdict ≠ "accepted" →
      e2.verdict = "skipped" ∧ e2.execution_time = none ∧ e2.memory_used = none) :=
  judge_testcase_results_aligned w_judge_job false { success := true, message := none }
    (.ok ()) (fun _ => w_env_re) (by simp) (fun h => absurd h (by decide))

/-- Counterexample for C1 as stated: a compile-failing job with one
testcase publishes a result whose `testcase_results` is empty (length 0,
not 1). -/
theorem judge_testcase_results_counterexample :
    (process_judge_job w_judge_job true { success := false, message := some "boom" }
      (.ok ()) (fun _ => w_env_re)).testcase_results.length ≠
      w_judge_job.testcases.length := by
  decide

/-- C3: on every return path of the standard judge pipeline and of the
anigma Task-2 pipeline, the overall `execution_time` field is non-null
iff the overall verdict is `accepted`, and likewise for `memory_used`. -/
theorem overall_resources_iff_accepted (job : JudgeJob) (compile_needed : Bool)
    (compile_result : CompileResult) (checker_resolution : Except String Unit)
    (env : Nat → TcEnv)
    (ajob : AnigmaJudgeJob) (makefile_exists : Bool) (build : ExecutionOutcome)
    (submitted_code reference_code : String) (aenv : Nat → AnigmaTcEnv) :
    (((process_judge_job job compile_needed compile_result checker_resolution
        env).execution_time ≠ none ↔
      (process_judge_job job compile_needed compile_result checker_resolution
        env).verdict = "accepted") ∧
     ((process_judge_job job compile_needed compile_result checker_resolution
        env).memory_used ≠ none ↔
      (process_judge_job job compile_needed compile_result checker_resolution
        env).verdict = "accepted")) ∧
    (((process_anigma_job ajob makefile_exists build submitted_code reference_code
        aenv).base.execution_time ≠ none ↔
      (process_anigma_job ajob makefile_exists build submitted_code reference_code
        aenv).base.verdict = "accepted") ∧
     ((process_anigma_job ajob makefile_exists build submitted_code reference_code
        aenv).base.memory_used ≠ none ↔
      (process_anigma_job ajob makefile_exists build submitted_code reference_code
        aenv).base.verdict = "accepted")) := by
  have hne1 : ("compile_error" : String) ≠ "accepted" := by decide
  have hne2 : ("system_error" : String) ≠ "accepted" := by decide
  constructor
  · rcases process_judge_job_shape job compile_needed compile_result checker_resolution env
      with ⟨msg, hr⟩ | ⟨msg, hr⟩ | ⟨sj, hr⟩ <;> rw [hr]
    · exact ⟨⟨fun h => absurd rfl h, fun h => absurd h hne1⟩,
        ⟨fun h => absurd rfl h, fun h => absurd h hne1⟩⟩
    · exact ⟨⟨fun h => absurd rfl h, fun h => absurd h hne2⟩,
        ⟨fun h => absurd rfl h, fun h => absurd h hne2⟩⟩
    · by_cases hacc :
          (run_testcases sj (job.testcases.enum.map (fun p => (p.2, env p.1)))).2.1 = .accepted
      · constructor <;> simp [judge_after_checker, hacc, verdict_str_accepted]
      · constructor <;> simp [judge_after_checker, hacc, verdict_str_accepted]
  · unfold process_anigma_job
    split
    · exact ⟨⟨fun h => absurd rfl h, fun h => absurd h hne1⟩,
        ⟨fun h => absurd rfl h, fun h => absurd h hne1⟩⟩
    · split
      · exact ⟨⟨fun h => absurd rfl h, fun h => absurd h hne1⟩,
          ⟨fun h => absurd rfl h, fun h => absurd h hne1⟩⟩
      · by_cases hacc :
            (anigma_run_testcases
              (ajob.testcases.enum.map (fun p => (p.2, aenv p.1)))).2.1 = .accepted
        · constructor <;> simp [hacc, verdict_str_accepted]
        · constructor <;> simp [hacc, verdict_str_accepted]

/-- C5: the Anigma Task-1 outcome matrix over the two runs A and B:
both exit 0 with differing outputs → accepted, 30; both exit 0 with
equal outputs → wrong_answer, 0; A fails and B exits 0 → accepted, 30;
A exits 0 and B fails → system_error, 0; both fail → system_error, 0. -/
theorem anigma_task1_outcome_matrix (a b : ExecutionOutcome) :
    (a.status = .exited 0 → b.status = .exited 0 → a.stdout ≠ b.stdout →
      anigma_task1_verdict_score a b = (.accepted, 30)) ∧
    (a.status = .exited 0 → b.status = .exited 0 → a.stdout = b.stdout →
      anigma_task1_verdict_score a b = (.wrongAnswer, 0)) ∧
    (a.status ≠ .exited 0 → b.status = .exited 0 →
      anigma_task1_verdict_score a b = (.accepted, 30)) ∧
    (a.status = .exited 0 → b.status ≠ .exited 0 →
      anigma_task1_verdict_score a b = (.systemError, 0)) ∧
    (a.status ≠ .exited 0 → b.status ≠ .exited 0 →
      anigma_task1_verdict_score a b = (.systemError, 0)) := by
  refine ⟨fun h1 h2 h3 => ?_, fun h1 h2 h3 => ?_, fun h1 h2 => ?_,
    fun h1 h2 => ?_, fun h1 h2 => ?_⟩ <;>
    simp [anigma_task1_verdict_score, beq_iff_eq, bne_iff_ne, h1, h2]
  · exact h3
  · exact h3

/-- Witness for C5: all five rows of the matrix at concrete runs. -/
theorem anigma_task1_outcome_matrix_witness :
    anigma_task1_verdict_score w_t1_a w_t1_b = (.accepted, 30) ∧
    anigma_task1_verdict_score w_t1_a w_t1_a = (.wrongAnswer, 0) ∧
    anigma_task1_verdict_score w_run_re w_t1_b = (.accepted, 30) ∧
    anigma_task1_verdict_score w_t1_a w_run_re = (.systemError, 0) ∧
    anigma_task1_verdict_score w_run_re w_run_re = (.systemError, 0) := by
  refine ⟨?_, ?_, ?_, ?_, ?_⟩
  · exact (anigma_task1_outcome_matrix w_t1_a w_t1_b).1 (by decide) (by decide) (by decide)
  · exact (anigma_task1_outcome_matrix w_t1_a w_t1_a).2.1 (by decide) (by decide) rfl
  · exact (anigma_task1_outcome_matrix w_run_re w_t1_b).2.2.1 (by decide) (by decide)
  · exact (anigma_task1_outcome_matrix w_t1_a w_run_re).2.2.2.1 (by decide) (by decide)
  · exact (anigma_task1_outcome_matrix w_run_re w_run_re).2.2.2.2 (by decide) (by decide)

/-- C9: every file the playground Makefile mode returns has a safe
relative path (non-empty, not absolute, no `".."`), is none of the
chosen input filename, `input.txt`, `stdout.txt`, `stderr.txt`, and its
`content_base64` is exactly the standard base64 encoding of the file's
bytes. -/
theorem playground_created_files_safe (files_after : List String) (file_name : String)
    (read_file : String → Option (List Nat)) (cf : CreatedFile)
    (hmem : cf ∈ makefile_created_files files_after file_name read_file) :
    is_safe_path cf.path = true ∧
    cf.path ≠ "" ∧ cf.path.data.head? ≠ some '/' ∧ contains_dotdot cf.path.data = false ∧
    cf.path ≠ file_name ∧ cf.path ≠ "input.txt" ∧ cf.path ≠ "stdout.txt" ∧
    cf.path ≠ "stderr.txt" ∧
    ∃ bytes, read_file cf.path = some bytes ∧ cf.content_base64 = base64_encode bytes := by
  unfold makefile_created_files at hmem
  rcases List.mem_filterMap.1 hmem with ⟨rel, hrel, heq⟩
  dsimp only at heq
  rcases hread : read_file (normalize_path rel) with _ | bytes
  · rw [hread] at heq
    simp at heq
  · rw [hread] at heq
    simp only [Option.some.injEq] at heq
    rcases List.mem_filter.1 hrel with ⟨hrel1, hcond2⟩
    rcases List.mem_filter.1 hrel1 with ⟨-, hcond1⟩
    simp only [Bool.and_eq_true, bne_iff_ne] at hcond2
    obtain ⟨⟨⟨hn1, hn2⟩, hn3⟩, hn4⟩ := hcond2
    subst heq
    obtain ⟨hs1, hs2, hs3⟩ := is_safe_path_spec _ hcond1
    exact ⟨hcond1, hs3, hs1, hs2, hn1, hn4, hn2, hn3, bytes, hread, rfl⟩

/-- Witness for C9: a run that leaves `out.bin` with bytes `00 01 FF`
returns it with base64 content `"AAH/"`. -/
theorem playground_created_files_safe_witness :
    is_safe_path w_created_file.path = true ∧
    w_created_file.path ≠ "" ∧ w_created_file.path.data.head? ≠ some '/' ∧
    contains_dotdot w_created_file.path.data = false ∧
    w_created_file.path ≠ "input.txt" ∧ w_created_file.path ≠ "input.txt" ∧
    w_created_file.path ≠ "stdout.txt" ∧ w_created_file.path ≠ "stderr.txt" ∧
    ∃ bytes, w_read_file w_created_file.path = some bytes ∧
      w_created_file.content_base64 = base64_encode bytes :=
  playground_created_files_safe ["out.bin"] "input.txt" w_read_file w_created_file
    (by decide)

/-- C10: in every Anigma Task-2 result each per-testcase entry's
execution_time and memory_used are non-null iff the entry's verdict is
`accepted`, while the standard judge pipeline populates them on every
entry it actually executed (every non-skipped entry), whatever its
verdict. -/
theorem testcase_resources_iff_verdict
    (ajob : AnigmaJudgeJob) (makefile_exists : Bool) (build : ExecutionOutcome)
    (submitted_code reference_code : String) (aenv : Nat → AnigmaTcEnv)
    (job : JudgeJob) (compile_needed : Bool) (compile_result : CompileResult)
    (checker_resolution : Except String Unit) (env : Nat → TcEnv) :
    (∀ e ∈ (process_anigma_job ajob makefile_exists build submitted_code
        reference_code aenv).base.testcase_results,
      (e.execution_time ≠ none ↔ e.verdict = "accepted") ∧
      (e.memory_used ≠ none ↔ e.verdict = "accepted")) ∧
    (∀ e ∈ (process_judge_job job compile_needed compile_result checker_resolution
        env).testcase_results,
      (e.execution_time ≠ none ↔ e.verdict ≠ "skipped") ∧
      (e.memory_used ≠ none ↔ e.verdict ≠ "skipped")) := by
  constructor
  · intro e he
    unfold process_anigma_job at he
    split at he
    · simp at he
    · split at he
      · simp at he
      · dsimp only at he
        rcases List.mem_append.1 he with hm | hm
        · exact anigma_run_testcases_resources _ e hm
        · obtain ⟨hv, ht, hm2⟩ := anigma_skipped_map_facts _ e hm
          rw [hv, ht, hm2]
          exact ⟨⟨fun h => absurd rfl h, fun h => absurd h (by decide)⟩,
            ⟨fun h => absurd rfl h, fun h => absurd h (by decide)⟩⟩
  · intro e he
    rcases process_judge_job_shape job compile_needed compile_result checker_resolution env
      with ⟨msg, hr⟩ | ⟨msg, hr⟩ | ⟨sj, hr⟩ <;> rw [hr] at he
    · simp at he
    · simp at he
    · dsimp only [judge_after_checker] at he
      rcases List.mem_append.1 he with hm | hm
      · obtain ⟨ht, hm2, hv⟩ := run_testcases_resources sj _ e hm
        exact ⟨⟨fun _ => hv, fun _ => ht⟩, ⟨fun _ => hv, fun _ => hm2⟩⟩
      · obtain ⟨hv, ht, hm2⟩ := skipped_map_facts _ e hm
        rw [hv, ht, hm2]
        exact ⟨⟨fun h => absurd rfl h, fun h => absurd rfl h⟩,
          ⟨fun h => absurd rfl h, fun h => absurd rfl h⟩⟩

/-- Witness for C10: the first failing anigma entry carries null
resource fields; the judger's executed runtime-error entry carries
populated ones. -/
theorem testcase_resources_iff_verdict_witness :
    ((w_aentry_wa.execution_time ≠ none ↔ w_aentry_wa.verdict = "accepted") ∧
     (w_aentry_wa.memory_used ≠ none ↔ w_aentry_wa.verdict = "accepted")) ∧
    ((w_entry_re.execution_time ≠ none ↔ w_entry_re.verdict ≠ "skipped") ∧
     (w_entry_re.memory_used ≠ none ↔ w_entry_re.verdict ≠ "skipped")) := by
  constructor
  · exact (testcase_resources_iff_verdict w_ajob true w_build_ok "" ""
      (fun _ => w_aenv_wa) w_judge_job false { success := true, message := none }
      (.ok ()) (fun _ => w_env_re)).1 w_aentry_wa (by decide)
  · exact (testcase_resources_iff_verdict w_ajob true w_build_ok "" ""
      (fun _ => w_aenv_wa) w_judge_job false { success := true, message := none }
      (.ok ()) (fun _ => w_env_re)).2 w_entry_re (by decide)

end AnaJudge
